import Mathlib

/-!
Shallow embedding of the OAI-PMH harvesting core of `consechador-oai`:
the paginated protocol client (`app/services/oai_client.py`), the Dublin-Core
field mappers (`app/services/mapper_dspace.py`, `app/services/mapper_omeka.py`),
the harvest-state store (`app/services/harvest_state.py`), the two source
connectors (`app/services/dspace_connector.py`, `app/services/omeka_connector.py`)
and the row (de)serialisation of the SQLite backend
(`app/services/sqlite_backend.py`).

Python strings are modelled as Lean `String`s and the Python string
operations used by the code (`strip`, `startswith`, `split`, `join`,
`rstrip`) are given explicit executable models over `String.data`
(`List Char`).  Network, XML parsing and the database are modelled by
explicit data: a run of the client is driven by a function from requests to
responses plus a fuel bound, a parsed document is a tree-shaped value, and
each database table is an association list.
-/

/-- Model of Python `str.strip()` on a character list: drop whitespace from
both ends. -/
def stripChars (l : List Char) : List Char :=
  ((l.dropWhile Char.isWhitespace).reverse.dropWhile Char.isWhitespace).reverse

/-- Model of Python `str.strip()`. -/
def pyStrip (s : String) : String :=
  ⟨stripChars s.data⟩

/-- Model of Python `s.startswith(pre)`. -/
def pyStartsWith (pre s : String) : Bool :=
  pre.data.isPrefixOf s.data

/-- Model of Python `sep.join(xs)` (here `sep` is always `"; "`). -/
def pyJoin (sep : String) (xs : List String) : String :=
  ⟨List.intercalate sep.data (xs.map String.data)⟩

/-- Model of Python `s.split(c)` for a one-character separator `c`. -/
def pySplitChar (c : Char) (s : String) : List String :=
  (s.data.splitOn c).map (fun l => ⟨l⟩)

/-- Model of Python `s.rstrip("?")` (used on the base URL of the client). -/
def pyRstripQmark (s : String) : String :=
  ⟨(s.data.reverse.dropWhile (fun c => c = '?')).reverse⟩

/-- Model of Python truthiness filtering on an optional string: `if x:`
is false for `None` and for the empty string. -/
def truthyOpt (o : Option String) : Option String :=
  match o with
  | none => none
  | some s => if s = "" then none else some s

/-! ## Dublin-Core metadata elements

A `<dc>` element handed to a mapper is modelled as its list of child
elements in document order, each child carrying its qualified tag and its
optional text (`el.text` may be `None`). -/

/-- One child element of a `<dc>` container: qualified tag plus `el.text`. -/
structure DcField where
  tag : String
  text : Option String
deriving DecidableEq, Repr

/-- A raw metadata element: the children of the `<dc>` container in
document order. -/
abbrev DcElement : Type := List DcField

/-- `NS_DC` from the mapper modules (the brace characters of the ElementTree
qualified-name syntax are written escaped). -/
def NS_DC : String := "\x7bhttp://purl.org/dc/elements/1.1/\x7d"

/-- Model of `dc_el.findall(f"{NS_DC}{tag}")`: the children whose qualified
tag matches, in document order. -/
def findallNs (dc_el : DcElement) (tag : String) : List DcField :=
  dc_el.filter (fun f => f.tag = NS_DC ++ tag)

/-- `_get_first` from the mapper modules: first occurrence of `tag` whose
stripped text is non-empty, returned stripped; `none` otherwise. -/
def _get_first (dc_el : DcElement) (tag : String) : Option String :=
  (findallNs dc_el tag).findSome? (fun el =>
    let text := pyStrip (el.text.getD "")
    if text = "" then none else some text)

/-- `_get_all` from the mapper modules: all occurrences of `tag` with
non-empty stripped text, stripped, in document order. -/
def _get_all (dc_el : DcElement) (tag : String) : List String :=
  (findallNs dc_el tag).filterMap (fun el =>
    let text := pyStrip (el.text.getD "")
    if text = "" then none else some text)

/-! ## The unified record model (`app/models/unified_record.py`)

`UnifiedScholarlyRecord` is a pydantic model.  Its only validated field is
`url_landing_page : Optional[HttpUrl]`; constructing a record whose
`url_landing_page` is not a valid HTTP(S) URL raises a `ValidationError`.
Datetime values are modelled as their ISO strings. -/

structure UnifiedScholarlyRecord where
  id : String
  oai_identifier : String
  title : String
  authors : List String
  institution : String
  repository : String
  date_issued : Option String
  type : Option String
  url_landing_page : Option String
  abstract : Option String
  keywords : List String
  language : Option String
  collections : List String
  date_indexed : Option String
deriving DecidableEq, Repr

/-- Modelled from the pydantic `HttpUrl` contract (library code, not under
`src/`): a value is accepted only if it has scheme `http` or `https`
followed by a non-empty host part.  (Real pydantic checks more; every URL
this development feeds in is accepted by both, and `"http://"` with its
empty host is rejected by both.) -/
def isAcceptedHttpUrl (s : String) : Bool :=
  if pyStartsWith "http://" s then
    ((s.data.drop 7).takeWhile (fun c => ¬ (c = '/' ∨ c = '?' ∨ c = '#'))) ≠ []
  else if pyStartsWith "https://" s then
    ((s.data.drop 8).takeWhile (fun c => ¬ (c = '/' ∨ c = '?' ∨ c = '#'))) ≠ []
  else false

/-- The pydantic constructor `UnifiedScholarlyRecord(...)`: validates
`url_landing_page` and otherwise builds the record. -/
def mkUnifiedScholarlyRecord (id oai_identifier title : String)
    (authors : List String) (institution repository : String)
    (date_issued type url_landing_page abstract : Option String)
    (keywords : List String) (language : Option String)
    (collections : List String) (date_indexed : Option String) :
    Except String UnifiedScholarlyRecord :=
  match url_landing_page with
  | some u =>
      if isAcceptedHttpUrl u then
        .ok ⟨id, oai_identifier, title, authors, institution, repository,
          date_issued, type, some u, abstract, keywords, language,
          collections, date_indexed⟩
      else
        .error "ValidationError: url_landing_page is not a valid HTTP URL"
  | none =>
      .ok ⟨id, oai_identifier, title, authors, institution, repository,
        date_issued, type, none, abstract, keywords, language,
        collections, date_indexed⟩

/-! ## The field mappers -/

/-- The landing-page scan shared by both mappers: first identifier value
starting with `http://` or `https://`, else none. -/
def findFirstUrl (vals : List String) : Option String :=
  vals.find? (fun v => pyStartsWith "http://" v || pyStartsWith "https://" v)

/-- `map_dspace_dc_to_record` (`app/services/mapper_dspace.py`); `now` is
the value of `datetime.utcnow()` at mapping time. -/
def map_dspace_dc_to_record (oai_identifier : String) (dc_el : DcElement)
    (institution repository : String) (now : String) :
    Except String UnifiedScholarlyRecord :=
  let title := (_get_first dc_el "title").getD "Sin título"
  let creators := _get_all dc_el "creator"
  let authors := if creators = [] then _get_all dc_el "contributor" else creators
  let abstract := _get_first dc_el "description"
  let keywords := _get_all dc_el "subject"
  let date_issued := _get_first dc_el "date"
  let type_ := _get_first dc_el "type"
  let language := _get_first dc_el "language"
  let url_landing := findFirstUrl (_get_all dc_el "identifier")
  mkUnifiedScholarlyRecord oai_identifier oai_identifier title authors
    institution repository date_issued type_ url_landing abstract keywords
    language [] (some now)

/-- `map_omeka_dc_to_record` (`app/services/mapper_omeka.py`); same field
extraction policy as the DSpace mapper. -/
def map_omeka_dc_to_record (oai_identifier : String) (dc_el : DcElement)
    (institution repository : String) (now : String) :
    Except String UnifiedScholarlyRecord :=
  let title := (_get_first dc_el "title").getD "Sin título"
  let creators := _get_all dc_el "creator"
  let authors := if creators = [] then _get_all dc_el "contributor" else creators
  let abstract := _get_first dc_el "description"
  let keywords := _get_all dc_el "subject"
  let date_issued := _get_first dc_el "date"
  let type_ := _get_first dc_el "type"
  let language := _get_first dc_el "language"
  let url_landing := findFirstUrl (_get_all dc_el "identifier")
  mkUnifiedScholarlyRecord oai_identifier oai_identifier title authors
    institution repository date_issued type_ url_landing abstract keywords
    language [] (some now)

/-! ## The OAI-PMH client (`app/services/oai_client.py`)

A run of `iter_records` is driven by an abstract network: a function from
requests to HTTP responses.  A response carries its status code and the
outcome of parsing its body with the tolerant parser.  The `while True`
loop is embedded with an explicit fuel bound; a run that does not finish
within its fuel is `none` (the claims only speak about completed runs). -/

/-- Query parameters of the initial `ListRecords` request. -/
structure OaiParams where
  metadataPrefix : String
  set : Option String
  fromDate : Option String
  untilDate : Option String
deriving DecidableEq, Repr

/-- A request sent by the client: the initial parameterised request, or a
continuation request carrying only the resumption token. -/
inductive OaiRequest where
  | initial (params : OaiParams)
  | resume (token : String)
deriving DecidableEq, Repr

/-- `<header>` of a record: the optional `<identifier>` child with its
optional text. -/
structure OaiHeaderEl where
  identifier : Option (Option String)
deriving DecidableEq, Repr

/-- `<metadata>` of a record: optional `oai_dc:dc` and `dc:dc` children. -/
structure OaiMetadataEl where
  oaiDc : Option DcElement
  dcDc : Option DcElement
deriving DecidableEq, Repr

/-- One `<record>` element of a page. -/
structure OaiRecordEl where
  header : Option OaiHeaderEl
  metadata : Option OaiMetadataEl
deriving DecidableEq, Repr

/-- An explicit `<error>` element of the OAI envelope. -/
structure OaiErrorEl where
  code : Option String
  text : Option String
deriving DecidableEq, Repr

/-- A parsed OAI response document: optional explicit error element, the
record elements in document order, and the optional `<resumptionToken>`
element with its optional text. -/
structure OaiDoc where
  errorEl : Option OaiErrorEl
  records : List OaiRecordEl
  resumptionToken : Option (Option String)
deriving DecidableEq, Repr

/-- Outcome of feeding the response body to the tolerant XML parser:
either an `XMLSyntaxError` even with `recover=True`, or a document. -/
inductive XmlOutcome where
  | failed
  | parsed (doc : OaiDoc)
deriving DecidableEq, Repr

/-- An HTTP response: status code and parse outcome of its body. -/
structure HttpResponse where
  status : Nat
  body : XmlOutcome
deriving DecidableEq, Repr

/-- The abstract network a run is driven by. -/
abbrev OaiNet : Type := OaiRequest → HttpResponse

/-- The fatal failures `iter_records` raises as `RuntimeError`. -/
inductive OaiFailure where
  | httpError (status : Nat)
  | parseError
  | protocolError (code : Option String) (text : Option String)
deriving DecidableEq, Repr

/-- `httpx.Response.raise_for_status()` does not raise exactly on a
2xx status. -/
def isSuccessStatus (status : Nat) : Bool :=
  200 ≤ status ∧ status < 300

/-- The record-extraction loop over one page: for each `<record>`, skip it
unless it has a header with a non-blank identifier and a metadata container
(`oai_dc:dc`, falling back to `dc:dc`); yield `(identifier, dc)`. -/
def extractPage (doc : OaiDoc) : List (String × DcElement) :=
  doc.records.filterMap (fun rec =>
    match rec.header with
    | none => none
    | some header =>
      match header.identifier with
      | none => none
      | some idText =>
        let oai_identifier := pyStrip (idText.getD "")
        if oai_identifier = "" then none
        else
          match rec.metadata with
          | none => none
          | some md =>
            match md.oaiDc.orElse (fun _ => md.dcDc) with
            | none => none
            | some dc_el => some (oai_identifier, dc_el))

/-- The resumption token extracted from a page: present only when the
element exists and its stripped text is non-empty. -/
def tokenOf (doc : OaiDoc) : Option String :=
  match doc.resumptionToken with
  | none => none
  | some txt =>
    let t := pyStrip (txt.getD "")
    if t = "" then none else some t

/-- One run of the `while True` loop of `iter_records`, with `tok` the
current resumption token and `acc` the records already yielded.  Returns
`none` when the fuel runs out, otherwise the yielded records paired with
`none` (normal termination) or the fatal failure raised. -/
def iterRecordsGo (net : OaiNet) (params : OaiParams) :
    Nat → Option String → List (String × DcElement) →
    Option (List (String × DcElement) × Option OaiFailure)
  | 0, _, _ => none
  | fuel + 1, tok, acc =>
    let req := match tok with
      | some t => OaiRequest.resume t
      | none => OaiRequest.initial params
    let resp := net req
    if isSuccessStatus resp.status then
      match resp.body with
      | .failed => some (acc, some .parseError)
      | .parsed doc =>
        match doc.errorEl with
        | some e => some (acc, some (.protocolError e.code e.text))
        | none =>
          let acc' := acc ++ extractPage doc
          match tokenOf doc with
          | some t => iterRecordsGo net params fuel (some t) acc'
          | none => some (acc', none)
    else
      if tok.isSome ∧ 500 ≤ resp.status then
        some (acc, none)
      else
        some (acc, some (.httpError resp.status))

/-- The client object (`OaiClient.__init__`). -/
structure OaiClient where
  base_url : String
  metadata_prefix : String
  set_spec : Option String
  timeout : Nat
deriving DecidableEq, Repr

/-- `OaiClient(base_url, metadata_prefix, set_spec)` as built by the
connectors (default timeout 30; the base URL is right-stripped of `?`). -/
def OaiClient.make (base_url metadata_prefix : String)
    (set_spec : Option String) : OaiClient :=
  ⟨pyRstripQmark base_url, metadata_prefix, set_spec, 30⟩

/-- The parameter dictionary built at the top of `iter_records`: optional
entries are included only when truthy. -/
def initialParams (c : OaiClient) (from_date until_date : Option String) :
    OaiParams :=
  ⟨c.metadata_prefix, truthyOpt c.set_spec, truthyOpt from_date,
    truthyOpt until_date⟩

/-- `OaiClient.iter_records`, as a complete run with fuel `fuel`. -/
def OaiClient.iter_records (c : OaiClient) (net : OaiNet) (fuel : Nat)
    (from_date until_date : Option String) :
    Option (List (String × DcElement) × Option OaiFailure) :=
  iterRecordsGo net (initialParams c from_date until_date) fuel none []

/-! ## The harvest-state store (`app/services/harvest_state.py`)

The `harvest_state` table (`repo_id TEXT PRIMARY KEY, last_harvest_date
TEXT`) is modelled as an association list keyed by `repo_id`. -/

/-- The `harvest_state` table. -/
abbrev HarvestState : Type := List (String × String)

/-- `SELECT last_harvest_date FROM harvest_state WHERE repo_id = ?`. -/
def stateLookup (st : HarvestState) (repo_id : String) : Option String :=
  (st.find? (fun row => row.1 = repo_id)).map (fun row => row.2)

/-- `get_last_harvest_date`: the stored date, but `None` when no row exists
or the stored value is falsy (`if row and row[0]`). -/
def get_last_harvest_date (st : HarvestState) (repo_id : String) :
    Option String :=
  match stateLookup st repo_id with
  | some d => if d = "" then none else some d
  | none => none

/-- `INSERT ... ON CONFLICT(repo_id) DO UPDATE`: upsert by `repo_id`. -/
def stateUpsert (st : HarvestState) (repo_id date_str : String) :
    HarvestState :=
  if (st.find? (fun row => row.1 = repo_id)).isSome then
    st.map (fun row => if row.1 = repo_id then (repo_id, date_str) else row)
  else
    st ++ [(repo_id, date_str)]

/-- `update_last_harvest_date(repo_id, date_str=None)`; `todayUtc` is the
value of `datetime.utcnow().date().isoformat()`. -/
def update_last_harvest_date (st : HarvestState) (repo_id : String)
    (date_str : Option String) (todayUtc : String) : HarvestState :=
  stateUpsert st repo_id (date_str.getD todayUtc)

/-! ## The SQLite search backend (`app/services/sqlite_backend.py`)

Only `index_record` and `_row_to_record` are in scope.  A row of the
`records` table is the tuple of its 14 columns; the table is an
association list keyed by `id` (its PRIMARY KEY), written with
`INSERT OR REPLACE`. -/

/-- One row of the `records` table. -/
structure RecordRow where
  id : String
  oai_identifier : String
  title : String
  authors : String
  institution : String
  repository : String
  date_issued : Option String
  type : Option String
  url_landing_page : Option String
  abstract : Option String
  keywords : String
  language : Option String
  collections : String
  date_indexed : String
deriving DecidableEq, Repr

/-- The `records` table. -/
abbrev RecordsTable : Type := List RecordRow

/-- `INSERT OR REPLACE` by primary key `id`: the old row (if any) is
deleted and the new row inserted. -/
def tableUpsert (t : RecordsTable) (row : RecordRow) : RecordsTable :=
  (t.filter (fun r => r.id ≠ row.id)) ++ [row]

/-- The row written by `SqliteSearchBackend.index_record`; `utcnow` is the
value of `datetime.utcnow()` used when `date_indexed` is absent. -/
def rowOfRecord (record : UnifiedScholarlyRecord) (utcnow : String) :
    RecordRow :=
  { id := record.id
    oai_identifier := record.oai_identifier
    title := record.title
    authors := pyJoin "; " record.authors
    institution := record.institution
    repository := record.repository
    date_issued := record.date_issued
    type := record.type
    url_landing_page := truthyOpt record.url_landing_page
    abstract := record.abstract
    keywords := pyJoin "; " record.keywords
    language := record.language
    collections := pyJoin "; " record.collections
    date_indexed := record.date_indexed.getD utcnow }

/-- `SqliteSearchBackend.index_record`. -/
def index_record (t : RecordsTable) (record : UnifiedScholarlyRecord)
    (utcnow : String) : RecordsTable :=
  tableUpsert t (rowOfRecord record utcnow)

/-- The list comprehension `[x.strip() for x in (s or "").split(";") if
x.strip()]` of `_row_to_record`. -/
def splitSemiClean (s : String) : List String :=
  (pySplitChar ';' s).filterMap (fun a =>
    let t := pyStrip a
    if t = "" then none else some t)

/-- `SqliteSearchBackend._row_to_record`.  The stored columns are plain
text, so reconstruction never triggers URL validation in the model (the
code passes the stored string straight back to the pydantic constructor,
which re-validates; re-validation of a stored accepted URL succeeds). -/
def _row_to_record (row : RecordRow) : UnifiedScholarlyRecord :=
  { id := row.id
    oai_identifier := row.oai_identifier
    title := row.title
    authors := splitSemiClean row.authors
    institution := row.institution
    repository := row.repository
    date_issued := row.date_issued
    type := row.type
    url_landing_page := row.url_landing_page
    abstract := row.abstract
    keywords := splitSemiClean row.keywords
    language := row.language
    collections := splitSemiClean row.collections
    date_indexed := some row.date_indexed }

/-! ## The source connectors (`app/services/dspace_connector.py`,
`app/services/omeka_connector.py`)

A harvest invocation is a pure transformer of `(harvest_state, records
table)` driven by the abstract network.  It returns `none` when the
fuel of the client runs out, otherwise either the harvested count (normal
return) or the propagated exception, together with the two updated
tables. -/

structure DspaceRepoConfig where
  repo_id : String
  base_url : String
  metadata_prefix : String
  set_spec : Option String
  institution : String
  repository : String
deriving DecidableEq, Repr

structure OmekaRepoConfig where
  repo_id : String
  base_url : String
  metadata_prefix : String
  set_spec : String
  institution : String
  repository : String
deriving DecidableEq, Repr

/-- An exception propagated out of a harvest invocation: a fatal client
failure, or a `ValidationError` raised while mapping one record. -/
inductive HarvestError where
  | clientFailure (e : OaiFailure)
  | mapFailure (msg : String)
deriving DecidableEq, Repr

/-- The `for` loop body shared by all four harvest methods: map each
yielded record, index it, count it; a mapper exception aborts the loop at
that record, keeping earlier records indexed.  Returns the updated table,
the count, and the mapper error if one occurred. -/
def harvestLoop
    (mapper : String → DcElement → String → String → String →
      Except String UnifiedScholarlyRecord)
    (institution repository now : String) (t : RecordsTable) :
    List (String × DcElement) → RecordsTable × Nat × Option String
  | [] => (t, 0, none)
  | (oai_identifier, dc_el) :: rest =>
    match mapper oai_identifier dc_el institution repository now with
    | .error e => (t, 0, some e)
    | .ok record =>
      let t' := index_record t record now
      let res := harvestLoop mapper institution repository now t' rest
      (res.1, res.2.1 + 1, res.2.2)

/-- The client built by `DspaceConnector.__init__`. -/
def dspaceClient (cfg : DspaceRepoConfig) : OaiClient :=
  OaiClient.make cfg.base_url cfg.metadata_prefix cfg.set_spec

/-- The client built by `OmekaConnector.__init__` (its `set_spec` is a
plain string). -/
def omekaClient (cfg : OmekaRepoConfig) : OaiClient :=
  OaiClient.make cfg.base_url cfg.metadata_prefix (some cfg.set_spec)

/-- Outcome of one harvest invocation. -/
abbrev HarvestOutcome : Type :=
  Option (Except HarvestError Nat × HarvestState × RecordsTable)

/-- Assembles a harvest invocation from its client run: index the yielded
records in order (stopping at a mapper exception), then either propagate
the pending fatal failure or finish.  `updateState` says whether the
watermark is written on normal completion with the given count. -/
def runHarvest
    (mapper : String → DcElement → String → String → String →
      Except String UnifiedScholarlyRecord)
    (repo_id institution repository : String)
    (updateState : Nat → Bool)
    (clientRun : Option (List (String × DcElement) × Option OaiFailure))
    (st : HarvestState) (t : RecordsTable) (today now : String) :
    HarvestOutcome :=
  match clientRun with
  | none => none
  | some (recs, iterErr) =>
    let res := harvestLoop mapper institution repository now t recs
    match res.2.2 with
    | some e => some (.error (.mapFailure e), st, res.1)
    | none =>
      match iterErr with
      | some e => some (.error (.clientFailure e), st, res.1)
      | none =>
        let st' := if updateState res.2.1 then
          update_last_harvest_date st repo_id none today else st
        some (.ok res.2.1, st', res.1)

/-- `DspaceConnector.harvest_full`. -/
def DspaceConnector.harvest_full (cfg : DspaceRepoConfig) (net : OaiNet)
    (fuel : Nat) (st : HarvestState) (t : RecordsTable)
    (today now : String) : HarvestOutcome :=
  runHarvest map_dspace_dc_to_record cfg.repo_id cfg.institution
    cfg.repository (fun _ => true)
    ((dspaceClient cfg).iter_records net fuel none none) st t today now

/-- `DspaceConnector.harvest_incremental`: reads the watermark, bounds the
run with `from = watermark`, and updates the watermark only when
`count > 0`. -/
def DspaceConnector.harvest_incremental (cfg : DspaceRepoConfig)
    (net : OaiNet) (fuel : Nat) (st : HarvestState) (t : RecordsTable)
    (today now : String) : HarvestOutcome :=
  runHarvest map_dspace_dc_to_record cfg.repo_id cfg.institution
    cfg.repository (fun count => 0 < count)
    ((dspaceClient cfg).iter_records net fuel
      (get_last_harvest_date st cfg.repo_id) none) st t today now

/-- `OmekaConnector.harvest_full`. -/
def OmekaConnector.harvest_full (cfg : OmekaRepoConfig) (net : OaiNet)
    (fuel : Nat) (st : HarvestState) (t : RecordsTable)
    (today now : String) : HarvestOutcome :=
  runHarvest map_omeka_dc_to_record cfg.repo_id cfg.institution
    cfg.repository (fun _ => true)
    ((omekaClient cfg).iter_records net fuel none none) st t today now

/-- `OmekaConnector.harvest_incremental`. -/
def OmekaConnector.harvest_incremental (cfg : OmekaRepoConfig)
    (net : OaiNet) (fuel : Nat) (st : HarvestState) (t : RecordsTable)
    (today now : String) : HarvestOutcome :=
  runHarvest map_omeka_dc_to_record cfg.repo_id cfg.institution
    cfg.repository (fun count => 0 < count)
    ((omekaClient cfg).iter_records net fuel
      (get_last_harvest_date st cfg.repo_id) none) st t today now

/-! ## Concrete fixtures used by closed statements -/

/-- A `dc:identifier` child with the given text. -/
def dcIdentifier (v : String) : DcField := ⟨NS_DC ++ "identifier", some v⟩

/-- A `dc:title` child with the given text. -/
def dcTitle (v : String) : DcField := ⟨NS_DC ++ "title", some v⟩

/-- A raw element whose identifier field holds a non-URL value followed by
an HTTP value. -/
def sampleDcUrlSecond : DcElement :=
  [dcIdentifier "oai:123", dcIdentifier "http://example.org/x"]

/-- A raw element whose only identifier value is the invalid URL
`http://`. -/
def sampleDcBadUrl : DcElement := [dcIdentifier "http://"]

/-- A one-record page carrying a resumption token. -/
def samplePage1 : OaiDoc :=
  { errorEl := none
    records := [
      { header := some { identifier := some (some "oai:r1") },
        metadata := some { oaiDc := some [dcTitle "T1"], dcDc := none } }]
    resumptionToken := some (some "tok1") }

/-- A terminal page with no records and no token. -/
def sampleEmptyLastPage : OaiDoc :=
  { errorEl := none, records := [], resumptionToken := none }

/-- A network whose first page is `samplePage1` and whose continuation
request answers HTTP 500. -/
def net500OnResume : OaiNet := fun req =>
  match req with
  | .initial _ => { status := 200, body := .parsed samplePage1 }
  | .resume _ => { status := 500, body := .failed }

/-- A network that always answers one empty terminal page. -/
def netEmpty : OaiNet := fun _ =>
  { status := 200, body := .parsed sampleEmptyLastPage }

/-- A network that always answers HTTP 404. -/
def net404 : OaiNet := fun _ => { status := 404, body := .failed }

/-- A sample configuration for the DSpace connector. -/
def sampleDspaceCfg : DspaceRepoConfig :=
  ⟨"dspace_uclv", "http://dspace.example/oai", "oai_dc", none, "UCLV",
    "DSpace UCLV"⟩

/-- A sample configuration for the Omeka connector. -/
def sampleOmekaCfg : OmekaRepoConfig :=
  ⟨"omeka_uh", "http://omeka.example/oai", "oai_dc", "setA", "UH",
    "Omeka UH"⟩

/-- A record whose author entry has surrounding whitespace. -/
def samplePaddedRecord : UnifiedScholarlyRecord :=
  { id := "oai:1", oai_identifier := "oai:1", title := "T",
    authors := [" a "], institution := "i", repository := "r",
    date_issued := none, type := none, url_landing_page := none,
    abstract := none, keywords := [], language := none, collections := [],
    date_indexed := some "2024-01-01T00:00:00" }

/-! # Lemmas

General list and string lemmas used by the claim theorems. -/

theorem dropWhile_self {α : Type} (p : α → Bool) (l : List α) :
    (l.dropWhile p).dropWhile p = l.dropWhile p := by
  induction l with
  | nil => rfl
  | cons x xs ih =>
    by_cases h : p x
    · simp [List.dropWhile_cons, h, ih]
    · simp [List.dropWhile_cons, h]

theorem dropWhile_append_singleton {α : Type} (p : α → Bool) (c : α)
    (hc : p c = false) (xs : List α) :
    (xs ++ [c]).dropWhile p = xs.dropWhile p ++ [c] := by
  rw [List.dropWhile_append]
  by_cases h : (xs.dropWhile p).isEmpty
  · rw [List.isEmpty_iff] at h
    simp [h, List.dropWhile_cons, hc]
  · simp [h]

theorem head_false_of_dropWhile_eq_cons {α : Type} {p : α → Bool}
    {l : List α} {c : α} {cs : List α}
    (h : l.dropWhile p = c :: cs) : p c = false := by
  have hh := List.head?_dropWhile_not p l
  rw [h] at hh
  simpa using hh

/-- Strip of the right end only (the second half of `stripChars`). -/
def rstripWs (l : List Char) : List Char :=
  (l.reverse.dropWhile Char.isWhitespace).reverse

theorem stripChars_eq_rstripWs (l : List Char) :
    stripChars l = rstripWs (l.dropWhile Char.isWhitespace) := rfl

theorem stripChars_eq_cons {l : List Char} {c : Char} {cs : List Char}
    (h : l.dropWhile Char.isWhitespace = c :: cs) :
    stripChars l = c :: rstripWs cs := by
  have hc : Char.isWhitespace c = false := head_false_of_dropWhile_eq_cons h
  rw [stripChars_eq_rstripWs, h]
  show ((c :: cs).reverse.dropWhile Char.isWhitespace).reverse = _
  rw [List.reverse_cons, dropWhile_append_singleton _ _ hc,
    List.reverse_append]
  rfl

theorem stripChars_idem (l : List Char) :
    stripChars (stripChars l) = stripChars l := by
  cases h : l.dropWhile Char.isWhitespace with
  | nil =>
    have h0 : stripChars l = [] := by
      rw [stripChars_eq_rstripWs, h]
      rfl
    rw [h0]
    rfl
  | cons c cs =>
    have hc : Char.isWhitespace c = false := head_false_of_dropWhile_eq_cons h
    rw [stripChars_eq_cons h]
    have hdrop : (c :: rstripWs cs).dropWhile Char.isWhitespace
        = c :: rstripWs cs := by
      simp [List.dropWhile_cons, hc]
    rw [stripChars_eq_rstripWs, hdrop]
    show ((c :: rstripWs cs).reverse.dropWhile Char.isWhitespace).reverse
        = c :: rstripWs cs
    rw [List.reverse_cons]
    have hrev : (rstripWs cs).reverse = cs.reverse.dropWhile Char.isWhitespace := by
      simp [rstripWs]
    rw [hrev, dropWhile_append_singleton _ _ hc, dropWhile_self,
      List.reverse_append]
    rfl

theorem pyStrip_idem (s : String) : pyStrip (pyStrip s) = pyStrip s :=
  congrArg String.mk (stripChars_idem s.data)

theorem stripChars_cons_of_ws {c : Char} (hc : Char.isWhitespace c = true)
    (l : List Char) : stripChars (c :: l) = stripChars l := by
  unfold stripChars
  rw [List.dropWhile_cons, hc]
  simp

theorem stringMk_data (s : String) : (⟨s.data⟩ : String) = s := rfl

theorem pyStrip_space_cons (a : String) :
    pyStrip ⟨' ' :: a.data⟩ = pyStrip a := by
  show (⟨stripChars (' ' :: a.data)⟩ : String) = _
  rw [stripChars_cons_of_ws (by decide)]
  rfl

theorem intercalate_cons_eq {α : Type} (sep : List α) (xs : List (List α)) :
    ∀ x, List.intercalate sep (x :: xs)
      = x ++ (xs.map (fun y => sep ++ y)).join := by
  induction xs with
  | nil => intro x; simp [List.intercalate]
  | cons y ys ih =>
    intro x
    have h1 : List.intercalate sep (x :: y :: ys)
        = x ++ sep ++ List.intercalate sep (y :: ys) := by
      simp [List.intercalate, List.intersperse_cons_cons]
    rw [h1, ih y]
    simp [List.append_assoc]

theorem splitOn_semiJoin (ls : List (List Char)) :
    ∀ l : List Char, (';' ∉ l) → (∀ x ∈ ls, ';' ∉ x) →
      (l ++ (ls.map (fun x => ';' :: ' ' :: x)).join).splitOn ';'
        = l :: ls.map (fun x => ' ' :: x) := by
  induction ls with
  | nil =>
    intro l hl _
    show (l ++ []).splitOnP (fun c => c == ';') = [l]
    rw [List.append_nil]
    exact List.splitOnP_eq_single _ _ (by
      intro x hx
      simp only [beq_iff_eq]
      exact fun hc => hl (hc ▸ hx))
  | cons x xs ih =>
    intro l hl hls
    have hx : ';' ∉ x := hls x (by simp)
    have hxs : ∀ y ∈ xs, ';' ∉ y := fun y hy => hls y (by simp [hy])
    show (l ++ ((';' :: ' ' :: x) ++ (xs.map (fun y => ';' :: ' ' :: y)).join)).splitOnP
        (fun c => c == ';') = _
    have harr : l ++ ((';' :: ' ' :: x) ++ (xs.map (fun y => ';' :: ' ' :: y)).join)
        = l ++ ';' :: ((' ' :: x) ++ (xs.map (fun y => ';' :: ' ' :: y)).join) := by
      simp
    rw [harr]
    rw [List.splitOnP_first _ l (by
        intro c hc
        simp only [beq_iff_eq]
        exact fun h => hl (h ▸ hc)) ';' (by simp) _]
    have := ih (' ' :: x) (by
      intro hc
      rcases List.mem_cons.mp hc with h | h
      · exact absurd h (by decide)
      · exact hx h) hxs
    show _ = l :: ((' ' :: x) :: xs.map (fun y => ' ' :: y))
    rw [show ((' ' :: x) ++ (xs.map (fun y => ';' :: ' ' :: y)).join).splitOnP
        (fun c => c == ';') = (' ' :: x) :: xs.map (fun y => ' ' :: y) from this]

theorem splitSemiClean_tail (rest : List String)
    (h : ∀ a ∈ rest, pyStrip a = a ∧ pyStrip a ≠ "") :
    (rest.map (fun a => (⟨' ' :: a.data⟩ : String))).filterMap (fun a =>
      let t := pyStrip a
      if t = "" then none else some t) = rest := by
  induction rest with
  | nil => rfl
  | cons a as ih =>
    have ha := h a (by simp)
    have hstrip : pyStrip ⟨' ' :: a.data⟩ = a := by
      rw [pyStrip_space_cons, ha.1]
    simp only [List.map_cons, List.filterMap_cons, hstrip]
    rw [if_neg (ha.1 ▸ ha.2)]
    rw [ih (fun b hb => h b (by simp [hb]))]

theorem splitSemiClean_join (xs : List String)
    (h : ∀ a ∈ xs, (';' ∉ a.data) ∧ pyStrip a = a ∧ pyStrip a ≠ "") :
    splitSemiClean (pyJoin "; " xs) = xs := by
  cases xs with
  | nil => rfl
  | cons x rest =>
    have hx := h x (by simp)
    have hdata : (pyJoin "; " (x :: rest)).data
        = x.data ++ ((rest.map String.data).map (fun y => ';' :: ' ' :: y)).join := by
      show (List.intercalate "; ".data ((x :: rest).map String.data)) = _
      rw [List.map_cons, intercalate_cons_eq]
      rfl
    have hsplit : (pyJoin "; " (x :: rest)).data.splitOn ';'
        = x.data :: (rest.map String.data).map (fun y => ' ' :: y) := by
      rw [hdata]
      exact splitOn_semiJoin _ _ hx.1 (by
        intro y hy
        rcases List.mem_map.mp hy with ⟨b, hb, rfl⟩
        exact (h b (by simp [hb])).1)
    unfold splitSemiClean pySplitChar
    rw [hsplit]
    simp only [List.map_cons, List.filterMap_cons, List.map_map]
    have hne : x ≠ "" := hx.2.1 ▸ hx.2.2
    rw [stringMk_data, hx.2.1, if_neg hne]
    have htail : List.map ((fun l => (⟨l⟩ : String)) ∘ (fun y => ' ' :: y) ∘ String.data) rest
        = rest.map (fun a => (⟨' ' :: a.data⟩ : String)) := by
      simp [Function.comp]
    rw [htail, splitSemiClean_tail rest (fun b hb => (h b (by simp [hb])).2)]

theorem pyStrip_empty : pyStrip "" = "" := rfl

theorem _get_first_some {dc_el : DcElement} {tag t : String}
    (h : _get_first dc_el tag = some t) : t ≠ "" ∧ pyStrip t = t := by
  obtain ⟨el, _, hel⟩ := List.exists_of_findSome?_eq_some h
  by_cases hz : pyStrip (el.text.getD "") = ""
  · simp only [hz] at hel
    simp at hel
  · simp only [if_neg hz] at hel
    rcases hel with hel
    have ht : t = pyStrip (el.text.getD "") := by
      by_contra hne
      simp [hz] at hel
      exact hne hel.symm
    constructor
    · rw [ht]; exact hz
    · rw [ht, pyStrip_idem]

theorem mk_record_ok {i o ti : String} {au : List String} {ins rep : String}
    {di ty url ab : Option String} {kw : List String} {la : Option String}
    {co : List String} {dx : Option String} {r : UnifiedScholarlyRecord}
    (h : mkUnifiedScholarlyRecord i o ti au ins rep di ty url ab kw la co dx
      = .ok r) :
    r = ⟨i, o, ti, au, ins, rep, di, ty, url, ab, kw, la, co, dx⟩ := by
  cases url with
  | none =>
    simp only [mkUnifiedScholarlyRecord] at h
    exact (Except.ok.injEq _ _ ▸ h).symm
  | some u =>
    simp only [mkUnifiedScholarlyRecord] at h
    by_cases hacc : isAcceptedHttpUrl u
    · rw [if_pos hacc] at h
      exact (Except.ok.injEq _ _ ▸ h).symm
    · rw [if_neg hacc] at h
      exact absurd h (by simp)

theorem map_dspace_ok_elim {oid : String} {dc_el : DcElement}
    {ins rep now : String} {r : UnifiedScholarlyRecord}
    (h : map_dspace_dc_to_record oid dc_el ins rep now = .ok r) :
    r = ⟨oid, oid, (_get_first dc_el "title").getD "Sin título",
      (if _get_all dc_el "creator" = [] then _get_all dc_el "contributor"
        else _get_all dc_el "creator"),
      ins, rep, _get_first dc_el "date", _get_first dc_el "type",
      findFirstUrl (_get_all dc_el "identifier"),
      _get_first dc_el "description", _get_all dc_el "subject",
      _get_first dc_el "language", [], some now⟩ := by
  simp only [map_dspace_dc_to_record] at h
  exact mk_record_ok h

theorem map_omeka_ok_elim {oid : String} {dc_el : DcElement}
    {ins rep now : String} {r : UnifiedScholarlyRecord}
    (h : map_omeka_dc_to_record oid dc_el ins rep now = .ok r) :
    r = ⟨oid, oid, (_get_first dc_el "title").getD "Sin título",
      (if _get_all dc_el "creator" = [] then _get_all dc_el "contributor"
        else _get_all dc_el "creator"),
      ins, rep, _get_first dc_el "date", _get_first dc_el "type",
      findFirstUrl (_get_all dc_el "identifier"),
      _get_first dc_el "description", _get_all dc_el "subject",
      _get_first dc_el "language", [], some now⟩ := by
  simp only [map_omeka_dc_to_record] at h
  exact mk_record_ok h

/-! # Claim theorems -/

/-- C7: for every raw metadata element and identifier, the canonical record
produced by either mapper has its `id` field equal to its `oai_identifier`
field. -/
theorem mapped_record_id_eq_oai_identifier :
    (∀ (oid : String) (dc_el : DcElement) (ins rep now : String)
      (r : UnifiedScholarlyRecord),
      map_dspace_dc_to_record oid dc_el ins rep now = .ok r →
      r.id = r.oai_identifier) ∧
    (∀ (oid : String) (dc_el : DcElement) (ins rep now : String)
      (r : UnifiedScholarlyRecord),
      map_omeka_dc_to_record oid dc_el ins rep now = .ok r →
      r.id = r.oai_identifier) := by
  constructor
  · intro oid dc_el ins rep now r h
    rw [map_dspace_ok_elim h]
  · intro oid dc_el ins rep now r h
    rw [map_omeka_ok_elim h]

/-- The record produced by mapping an empty raw element. -/
def sampleMappedEmpty : UnifiedScholarlyRecord :=
  ⟨"oai:1", "oai:1", "Sin título", [], "i", "r", none, none, none, none,
    [], none, [], some "t"⟩

theorem mapped_record_id_eq_oai_identifier_witness :
    sampleMappedEmpty.id = sampleMappedEmpty.oai_identifier :=
  mapped_record_id_eq_oai_identifier.1 "oai:1" [] "i" "r" "t"
    sampleMappedEmpty (by rfl)

/-- C8: a mapped record whose raw element has zero non-blank title
occurrences gets the fixed placeholder title, and the title of a mapped
record is never blank (in the model a record always carries a title
field, so it is never absent). -/
theorem mapped_record_title_default_and_nonblank :
    (∀ (oid : String) (dc_el : DcElement) (ins rep now : String)
      (r : UnifiedScholarlyRecord),
      map_dspace_dc_to_record oid dc_el ins rep now = .ok r →
      (_get_first dc_el "title" = none → r.title = "Sin título") ∧
        pyStrip r.title ≠ "") ∧
    (∀ (oid : String) (dc_el : DcElement) (ins rep now : String)
      (r : UnifiedScholarlyRecord),
      map_omeka_dc_to_record oid dc_el ins rep now = .ok r →
      (_get_first dc_el "title" = none → r.title = "Sin título") ∧
        pyStrip r.title ≠ "") := by
  have main : ∀ (dc_el : DcElement),
      (_get_first dc_el "title" = none →
        (_get_first dc_el "title").getD "Sin título" = "Sin título") ∧
      pyStrip ((_get_first dc_el "title").getD "Sin título") ≠ "" := by
    intro dc_el
    cases hgf : _get_first dc_el "title" with
    | none => exact ⟨fun _ => rfl, by decide⟩
    | some t =>
      obtain ⟨hne, hstrip⟩ := _get_first_some hgf
      refine ⟨fun hc => absurd hc (by simp), ?_⟩
      show pyStrip t ≠ ""
      rw [hstrip]
      exact hne
  constructor
  · intro oid dc_el ins rep now r h
    rw [map_dspace_ok_elim h]
    exact main dc_el
  · intro oid dc_el ins rep now r h
    rw [map_omeka_ok_elim h]
    exact main dc_el

theorem mapped_record_title_default_and_nonblank_witness :
    (_get_first ([] : DcElement) "title" = none →
      sampleMappedEmpty.title = "Sin título") ∧
    pyStrip sampleMappedEmpty.title ≠ "" :=
  mapped_record_title_default_and_nonblank.1 "oai:1" [] "i" "r" "t"
    sampleMappedEmpty (by rfl)

/-- C3 counterexample: the mapper is not a total function.  On a raw
element whose identifier field holds the value `http://` (an HTTP prefix
with an empty host), the landing-page scan selects it and the pydantic
validation of `url_landing_page` raises, so no record is produced. -/
theorem mapper_raises_on_invalid_url_value :
    map_dspace_dc_to_record "oai:1" sampleDcBadUrl "inst" "repo" "t0"
      = .error "ValidationError: url_landing_page is not a valid HTTP URL" := by
  rfl

/-- C3 amended: mapping performs no I/O and always produces a record —
with defaults for missing fields — provided the selected landing-page
candidate (the first identifier value starting with `http://` or
`https://`, if any) passes the URL validation of the record model; the
validation of that one field is the only failure path. -/
theorem mapper_total_when_url_candidate_valid :
    (∀ (oid : String) (dc_el : DcElement) (ins rep now : String),
      (∀ u, findFirstUrl (_get_all dc_el "identifier") = some u →
        isAcceptedHttpUrl u = true) →
      (map_dspace_dc_to_record oid dc_el ins rep now).isOk = true) ∧
    (∀ (oid : String) (dc_el : DcElement) (ins rep now : String),
      (∀ u, findFirstUrl (_get_all dc_el "identifier") = some u →
        isAcceptedHttpUrl u = true) →
      (map_omeka_dc_to_record oid dc_el ins rep now).isOk = true) := by
  have main : ∀ (dc_el : DcElement) (oid ins rep now : String),
      (∀ u, findFirstUrl (_get_all dc_el "identifier") = some u →
        isAcceptedHttpUrl u = true) →
      (mkUnifiedScholarlyRecord oid oid
        ((_get_first dc_el "title").getD "Sin título")
        (if _get_all dc_el "creator" = [] then _get_all dc_el "contributor"
          else _get_all dc_el "creator")
        ins rep (_get_first dc_el "date") (_get_first dc_el "type")
        (findFirstUrl (_get_all dc_el "identifier"))
        (_get_first dc_el "description") (_get_all dc_el "subject")
        (_get_first dc_el "language") [] (some now)).isOk = true := by
    intro dc_el oid ins rep now hvalid
    cases hurl : findFirstUrl (_get_all dc_el "identifier") with
    | none => simp [mkUnifiedScholarlyRecord, hurl, Except.isOk, Except.toBool]
    | some u =>
      simp [mkUnifiedScholarlyRecord, hurl, hvalid u hurl, Except.isOk, Except.toBool]
  constructor
  · intro oid dc_el ins rep now hvalid
    simp only [map_dspace_dc_to_record]
    exact main dc_el oid ins rep now hvalid
  · intro oid dc_el ins rep now hvalid
    simp only [map_omeka_dc_to_record]
    exact main dc_el oid ins rep now hvalid

theorem mapper_total_when_url_candidate_valid_witness :
    (map_dspace_dc_to_record "oai:1" sampleDcUrlSecond "inst" "repo" "t0").isOk
      = true :=
  mapper_total_when_url_candidate_valid.1 "oai:1" sampleDcUrlSecond "inst"
    "repo" "t0" (by
      intro u hu
      have : u = "http://example.org/x" := by
        rw [show findFirstUrl (_get_all sampleDcUrlSecond "identifier")
          = some "http://example.org/x" from rfl] at hu
        exact (Option.some.injEq _ _ ▸ hu).symm
      rw [this]
      decide)

/-- C2 counterexample: with identifier values `oai:123` then
`http://example.org/x` (non-URL value first in document order), the mapped
landing page is the HTTP value, not absent — the scan skips non-URL values
instead of stopping at them. -/
theorem landing_page_not_blocked_by_preceding_non_url :
    ((map_dspace_dc_to_record "oai:1" sampleDcUrlSecond "inst" "repo" "t0").map
        UnifiedScholarlyRecord.url_landing_page
      = .ok (some "http://example.org/x")) ∧
    some "http://example.org/x" ≠ (none : Option String) :=
  ⟨rfl, by decide⟩

theorem _get_all_identifier_pair (x y : String) (hx : pyStrip x = x)
    (hxne : x ≠ "") (hy : pyStrip y = y) (hyne : y ≠ "") :
    _get_all [dcIdentifier x, dcIdentifier y] "identifier" = [x, y] := by
  have heq : (NS_DC ++ "identifier" = NS_DC ++ "identifier") = True := by simp
  unfold _get_all findallNs dcIdentifier
  simp [heq, hx, hy, hxne, hyne]

theorem map_dspace_url_field {oid : String} {dc_el : DcElement}
    {ins rep now u : String}
    (hurl : findFirstUrl (_get_all dc_el "identifier") = some u)
    (hacc : isAcceptedHttpUrl u = true) :
    (map_dspace_dc_to_record oid dc_el ins rep now).map
      UnifiedScholarlyRecord.url_landing_page = .ok (some u) := by
  simp only [map_dspace_dc_to_record, hurl]
  simp [mkUnifiedScholarlyRecord, hacc, Except.map]

theorem map_omeka_url_field {oid : String} {dc_el : DcElement}
    {ins rep now u : String}
    (hurl : findFirstUrl (_get_all dc_el "identifier") = some u)
    (hacc : isAcceptedHttpUrl u = true) :
    (map_omeka_dc_to_record oid dc_el ins rep now).map
      UnifiedScholarlyRecord.url_landing_page = .ok (some u) := by
  simp only [map_omeka_dc_to_record, hurl]
  simp [mkUnifiedScholarlyRecord, hacc, Except.map]

/-- C2 amended: for a raw element whose identifier field holds one
non-URL value and one valid HTTP(S) value, both mappers set the landing
page to the HTTP(S) value in *either* document order — the scan takes the
first value with an HTTP(S) prefix and skips non-matching values, so a
preceding non-URL value does not make the landing page absent. -/
theorem landing_page_first_http_match_either_order :
    ∀ (a u oid ins rep now : String),
      (pyStartsWith "http://" a || pyStartsWith "https://" a) = false →
      (pyStartsWith "http://" u || pyStartsWith "https://" u) = true →
      isAcceptedHttpUrl u = true →
      pyStrip a = a → a ≠ "" → pyStrip u = u → u ≠ "" →
      ((map_dspace_dc_to_record oid [dcIdentifier a, dcIdentifier u] ins rep
          now).map UnifiedScholarlyRecord.url_landing_page = .ok (some u)) ∧
      ((map_dspace_dc_to_record oid [dcIdentifier u, dcIdentifier a] ins rep
          now).map UnifiedScholarlyRecord.url_landing_page = .ok (some u)) ∧
      ((map_omeka_dc_to_record oid [dcIdentifier a, dcIdentifier u] ins rep
          now).map UnifiedScholarlyRecord.url_landing_page = .ok (some u)) ∧
      ((map_omeka_dc_to_record oid [dcIdentifier u, dcIdentifier a] ins rep
          now).map UnifiedScholarlyRecord.url_landing_page = .ok (some u)) := by
  intro a u oid ins rep now hnon hu hacc hsa hna hsu hnu
  have hga1 : _get_all [dcIdentifier a, dcIdentifier u] "identifier" = [a, u] :=
    _get_all_identifier_pair a u hsa hna hsu hnu
  have hga2 : _get_all [dcIdentifier u, dcIdentifier a] "identifier" = [u, a] :=
    _get_all_identifier_pair u a hsu hnu hsa hna
  have hf1 : findFirstUrl [a, u] = some u := by
    simp [findFirstUrl, List.find?_cons, hnon, hu]
  have hf2 : findFirstUrl [u, a] = some u := by
    simp [findFirstUrl, List.find?_cons, hu]
  exact ⟨map_dspace_url_field (hga1 ▸ hf1) hacc,
    map_dspace_url_field (hga2 ▸ hf2) hacc,
    map_omeka_url_field (hga1 ▸ hf1) hacc,
    map_omeka_url_field (hga2 ▸ hf2) hacc⟩

theorem landing_page_first_http_match_either_order_witness :
    ((map_dspace_dc_to_record "oai:1"
        [dcIdentifier "oai:123", dcIdentifier "http://example.org/x"]
        "inst" "repo" "t0").map UnifiedScholarlyRecord.url_landing_page
      = .ok (some "http://example.org/x")) ∧
    ((map_dspace_dc_to_record "oai:1"
        [dcIdentifier "http://example.org/x", dcIdentifier "oai:123"]
        "inst" "repo" "t0").map UnifiedScholarlyRecord.url_landing_page
      = .ok (some "http://example.org/x")) ∧
    ((map_omeka_dc_to_record "oai:1"
        [dcIdentifier "oai:123", dcIdentifier "http://example.org/x"]
        "inst" "repo" "t0").map UnifiedScholarlyRecord.url_landing_page
      = .ok (some "http://example.org/x")) ∧
    ((map_omeka_dc_to_record "oai:1"
        [dcIdentifier "http://example.org/x", dcIdentifier "oai:123"]
        "inst" "repo" "t0").map UnifiedScholarlyRecord.url_landing_page
      = .ok (some "http://example.org/x")) :=
  landing_page_first_http_match_either_order "oai:123" "http://example.org/x"
    "oai:1" "inst" "repo" "t0" (by decide) (by decide) (by decide) (by decide)
    (by decide) (by decide) (by decide)

/-- C1: whenever the response to a request that carries a resumption token
has a non-success status with code at least 500, the record iterator
terminates normally (no failure) yielding exactly the records already
accumulated from earlier pages; in particular a two-page run whose second
page answers HTTP 500 yields exactly the records of page 1 without an
error. -/
theorem iter_records_soft_end_on_5xx_continuation :
    (∀ (net : OaiNet) (params : OaiParams) (fuel : Nat) (t : String)
      (acc : List (String × DcElement)),
      isSuccessStatus (net (.resume t)).status = false →
      500 ≤ (net (.resume t)).status →
      iterRecordsGo net params (fuel + 1) (some t) acc = some (acc, none)) ∧
    ((OaiClient.make "http://base" "oai_dc" none).iter_records net500OnResume
        5 none none = some ([("oai:r1", [dcTitle "T1"])], none)) := by
  constructor
  · intro net params fuel t acc h1 h2
    simp [iterRecordsGo, h1, h2]
  · rfl

theorem iter_records_soft_end_on_5xx_continuation_witness :
    (isSuccessStatus (net500OnResume (.resume "tok1")).status = false) ∧
    (500 ≤ (net500OnResume (.resume "tok1")).status) ∧
    iterRecordsGo net500OnResume
      (initialParams (OaiClient.make "http://base" "oai_dc" none) none none)
      3 (some "tok1") [("oai:r1", [dcTitle "T1"])]
      = some ([("oai:r1", [dcTitle "T1"])], none) :=
  ⟨by decide, by decide,
    iter_records_soft_end_on_5xx_continuation.1 net500OnResume
      (initialParams (OaiClient.make "http://base" "oai_dc" none) none none)
      2 "tok1" [("oai:r1", [dcTitle "T1"])] (by decide) (by decide)⟩

theorem harvestLoop_count
    (mapper : String → DcElement → String → String → String →
      Except String UnifiedScholarlyRecord)
    (i r now : String) :
    ∀ (recs : List (String × DcElement)) (t : RecordsTable),
      (harvestLoop mapper i r now t recs).2.2 = none →
      (harvestLoop mapper i r now t recs).2.1 = recs.length := by
  intro recs
  induction recs with
  | nil => intro t _; rfl
  | cons p rest ih =>
    intro t h
    obtain ⟨oid, dc_el⟩ := p
    simp only [harvestLoop] at h ⊢
    cases hm : mapper oid dc_el i r now with
    | error e =>
      rw [hm] at h
      exact absurd h (by simp)
    | ok record =>
      rw [hm] at h
      have h' : (harvestLoop mapper i r now (index_record t record now)
          rest).2.2 = none := h
      show (harvestLoop mapper i r now (index_record t record now)
          rest).2.1 + 1 = rest.length + 1
      rw [ih _ h']

theorem find_map_upsert (rid d : String) :
    ∀ st : List (String × String),
      (st.find? (fun row => row.1 = rid)).isSome = true →
      ((st.map (fun row => if row.1 = rid then (rid, d) else row)).find?
        (fun row => row.1 = rid)) = some (rid, d) := by
  intro st
  induction st with
  | nil => intro h; simp at h
  | cons p rest ih =>
    intro h
    obtain ⟨a, b⟩ := p
    by_cases hab : a = rid
    · simp [hab, List.find?_cons]
    · simp only [List.map_cons, if_neg hab]
      rw [List.find?_cons_of_neg _ (by simp [hab])]
      apply ih
      rw [List.find?_cons_of_neg _ (by simp [hab])] at h
      exact h

theorem stateLookup_upsert (st : HarvestState) (rid d : String) :
    stateLookup (stateUpsert st rid d) rid = some d := by
  unfold stateUpsert
  by_cases h : (st.find? (fun row => row.1 = rid)).isSome
  · rw [if_pos h]
    unfold stateLookup
    rw [find_map_upsert rid d st h]
    rfl
  · rw [if_neg h]
    unfold stateLookup
    rw [List.find?_append]
    have hnone : st.find? (fun row => row.1 = rid) = none := by
      cases hf : st.find? (fun row => row.1 = rid) with
      | none => rfl
      | some v => rw [hf] at h; simp at h
    rw [hnone]
    simp [List.find?_cons]

theorem runHarvest_ok
    {mapper : String → DcElement → String → String → String →
      Except String UnifiedScholarlyRecord}
    {rid i r : String} {upd : Nat → Bool}
    {recs : List (String × DcElement)} {ierr : Option OaiFailure}
    {st : HarvestState} {t : RecordsTable} {today now : String}
    {n : Nat} {st2 : HarvestState} {t2 : RecordsTable}
    (h : runHarvest mapper rid i r upd (some (recs, ierr)) st t today now
      = some (.ok n, st2, t2)) :
    n = recs.length ∧
      st2 = (if upd n then stateUpsert st rid today else st) := by
  simp only [runHarvest] at h
  cases hml : (harvestLoop mapper i r now t recs).2.2 with
  | some e => rw [hml] at h; simp at h
  | none =>
    rw [hml] at h
    cases ierr with
    | some e => simp at h
    | none =>
      simp only [Option.some.injEq, Prod.mk.injEq, Except.ok.injEq] at h
      obtain ⟨hn, hst, _⟩ := h
      have hcount := harvestLoop_count mapper i r now recs t hml
      constructor
      · rw [← hn, hcount]
      · rw [← hst, ← hn]
        unfold update_last_harvest_date
        rfl

theorem runHarvest_err
    {mapper : String → DcElement → String → String → String →
      Except String UnifiedScholarlyRecord}
    {rid i r : String} {upd : Nat → Bool}
    {recs : List (String × DcElement)} {ierr : Option OaiFailure}
    {st : HarvestState} {t : RecordsTable} {today now : String}
    {e : HarvestError} {st2 : HarvestState} {t2 : RecordsTable}
    (h : runHarvest mapper rid i r upd (some (recs, ierr)) st t today now
      = some (.error e, st2, t2)) :
    st2 = st := by
  simp only [runHarvest] at h
  cases hml : (harvestLoop mapper i r now t recs).2.2 with
  | some m =>
    rw [hml] at h
    simp only [Option.some.injEq, Prod.mk.injEq] at h
    exact h.2.1.symm
  | none =>
    rw [hml] at h
    cases ierr with
    | some f =>
      simp only [Option.some.injEq, Prod.mk.injEq] at h
      exact h.2.1.symm
    | none => simp at h

theorem runHarvest_propagates
    {mapper : String → DcElement → String → String → String →
      Except String UnifiedScholarlyRecord}
    {rid i r : String} {upd : Nat → Bool}
    {recs : List (String × DcElement)} {e : OaiFailure}
    {st : HarvestState} {t : RecordsTable} {today now : String} :
    (runHarvest mapper rid i r upd (some (recs, some e)) st t today now).map
      (fun res => (res.1.isOk, res.2.1)) = some (false, st) := by
  simp only [runHarvest]
  cases hml : (harvestLoop mapper i r now t recs).2.2 with
  | some m => simp [Except.isOk, Except.toBool]
  | none => simp [Except.isOk, Except.toBool]

/-- C4: for both sources, a full harvest that completes without a fatal
error unconditionally writes todays date as the stored watermark of the
source — also when zero records were harvested — and returns the number
of records the iterator yielded. -/
theorem full_harvest_sets_watermark_to_today :
    (∀ (cfg : DspaceRepoConfig) (net : OaiNet) (fuel : Nat)
      (st : HarvestState) (t : RecordsTable) (today now : String) (n : Nat)
      (st2 : HarvestState) (t2 : RecordsTable)
      (recs : List (String × DcElement)) (ierr : Option OaiFailure),
      DspaceConnector.harvest_full cfg net fuel st t today now
        = some (.ok n, st2, t2) →
      (dspaceClient cfg).iter_records net fuel none none = some (recs, ierr) →
      stateLookup st2 cfg.repo_id = some today ∧ n = recs.length) ∧
    (∀ (cfg : OmekaRepoConfig) (net : OaiNet) (fuel : Nat)
      (st : HarvestState) (t : RecordsTable) (today now : String) (n : Nat)
      (st2 : HarvestState) (t2 : RecordsTable)
      (recs : List (String × DcElement)) (ierr : Option OaiFailure),
      OmekaConnector.harvest_full cfg net fuel st t today now
        = some (.ok n, st2, t2) →
      (omekaClient cfg).iter_records net fuel none none = some (recs, ierr) →
      stateLookup st2 cfg.repo_id = some today ∧ n = recs.length) := by
  constructor
  · intro cfg net fuel st t today now n st2 t2 recs ierr h hiter
    unfold DspaceConnector.harvest_full at h
    rw [hiter] at h
    obtain ⟨hn, hst⟩ := runHarvest_ok h
    refine ⟨?_, hn⟩
    rw [hst]
    simp only [if_pos]
    exact stateLookup_upsert st cfg.repo_id today
  · intro cfg net fuel st t today now n st2 t2 recs ierr h hiter
    unfold OmekaConnector.harvest_full at h
    rw [hiter] at h
    obtain ⟨hn, hst⟩ := runHarvest_ok h
    refine ⟨?_, hn⟩
    rw [hst]
    simp only [if_pos]
    exact stateLookup_upsert st cfg.repo_id today

theorem full_harvest_sets_watermark_to_today_witness :
    stateLookup [("dspace_uclv", "TODAY")] sampleDspaceCfg.repo_id
      = some "TODAY" ∧ 0 = ([] : List (String × DcElement)).length :=
  full_harvest_sets_watermark_to_today.1 sampleDspaceCfg netEmpty 1 [] []
    "TODAY" "NOW" 0 [("dspace_uclv", "TODAY")] [] [] none (by rfl) (by rfl)

/-- C5: for both sources, an incremental harvest that completes normally
with zero records leaves the stored watermark unchanged, and writes todays
date only when the harvested count is positive. -/
theorem incremental_harvest_watermark_policy :
    (∀ (cfg : DspaceRepoConfig) (net : OaiNet) (fuel : Nat)
      (st : HarvestState) (t : RecordsTable) (today now : String) (n : Nat)
      (st2 : HarvestState) (t2 : RecordsTable),
      DspaceConnector.harvest_incremental cfg net fuel st t today now
        = some (.ok n, st2, t2) →
      (n = 0 → st2 = st) ∧
        (0 < n → stateLookup st2 cfg.repo_id = some today)) ∧
    (∀ (cfg : OmekaRepoConfig) (net : OaiNet) (fuel : Nat)
      (st : HarvestState) (t : RecordsTable) (today now : String) (n : Nat)
      (st2 : HarvestState) (t2 : RecordsTable),
      OmekaConnector.harvest_incremental cfg net fuel st t today now
        = some (.ok n, st2, t2) →
      (n = 0 → st2 = st) ∧
        (0 < n → stateLookup st2 cfg.repo_id = some today)) := by
  constructor
  · intro cfg net fuel st t today now n st2 t2 h
    unfold DspaceConnector.harvest_incremental at h
    cases hiter : (dspaceClient cfg).iter_records net fuel
        (get_last_harvest_date st cfg.repo_id) none with
    | none => rw [hiter] at h; exact absurd h (by simp [runHarvest])
    | some pr =>
      obtain ⟨recs, ierr⟩ := pr
      rw [hiter] at h
      obtain ⟨_, hst⟩ := runHarvest_ok h
      constructor
      · intro hz
        rw [hst, hz]
        simp
      · intro hpos
        rw [hst, if_pos (by simpa using hpos)]
        exact stateLookup_upsert st cfg.repo_id today
  · intro cfg net fuel st t today now n st2 t2 h
    unfold OmekaConnector.harvest_incremental at h
    cases hiter : (omekaClient cfg).iter_records net fuel
        (get_last_harvest_date st cfg.repo_id) none with
    | none => rw [hiter] at h; exact absurd h (by simp [runHarvest])
    | some pr =>
      obtain ⟨recs, ierr⟩ := pr
      rw [hiter] at h
      obtain ⟨_, hst⟩ := runHarvest_ok h
      constructor
      · intro hz
        rw [hst, hz]
        simp
      · intro hpos
        rw [hst, if_pos (by simpa using hpos)]
        exact stateLookup_upsert st cfg.repo_id today

theorem incremental_harvest_watermark_policy_witness :
    ((0 : Nat) = 0 →
      ([("dspace_uclv", "2020-01-01")] : HarvestState)
        = [("dspace_uclv", "2020-01-01")]) ∧
    (0 < (0 : Nat) →
      stateLookup [("dspace_uclv", "2020-01-01")] sampleDspaceCfg.repo_id
        = some "TODAY") :=
  incremental_harvest_watermark_policy.1 sampleDspaceCfg netEmpty 1
    [("dspace_uclv", "2020-01-01")] [] "TODAY" "NOW" 0
    [("dspace_uclv", "2020-01-01")] [] (by rfl)

/-- C6: for both sources and both harvest modes, a harvest invocation that
ends in an exception (a fatal client failure — first-request transport
failure, 4xx, unparseable document, explicit protocol error — or a mapper
validation failure) leaves the stored watermark unchanged; and whenever
the client run ends with a pending fatal failure, the harvest invocation
reports an error (never a normal return) with the state unchanged. -/
theorem fatal_harvest_error_leaves_watermark_unchanged :
    (∀ (cfg : DspaceRepoConfig) (net : OaiNet) (fuel : Nat)
      (st : HarvestState) (t : RecordsTable) (today now : String)
      (e : HarvestError) (st2 : HarvestState) (t2 : RecordsTable),
      DspaceConnector.harvest_full cfg net fuel st t today now
        = some (.error e, st2, t2) → st2 = st) ∧
    (∀ (cfg : DspaceRepoConfig) (net : OaiNet) (fuel : Nat)
      (st : HarvestState) (t : RecordsTable) (today now : String)
      (e : HarvestError) (st2 : HarvestState) (t2 : RecordsTable),
      DspaceConnector.harvest_incremental cfg net fuel st t today now
        = some (.error e, st2, t2) → st2 = st) ∧
    (∀ (cfg : OmekaRepoConfig) (net : OaiNet) (fuel : Nat)
      (st : HarvestState) (t : RecordsTable) (today now : String)
      (e : HarvestError) (st2 : HarvestState) (t2 : RecordsTable),
      OmekaConnector.harvest_full cfg net fuel st t today now
        = some (.error e, st2, t2) → st2 = st) ∧
    (∀ (cfg : OmekaRepoConfig) (net : OaiNet) (fuel : Nat)
      (st : HarvestState) (t : RecordsTable) (today now : String)
      (e : HarvestError) (st2 : HarvestState) (t2 : RecordsTable),
      OmekaConnector.harvest_incremental cfg net fuel st t today now
        = some (.error e, st2, t2) → st2 = st) ∧
    (∀ (cfg : DspaceRepoConfig) (net : OaiNet) (fuel : Nat)
      (st : HarvestState) (t : RecordsTable) (today now : String)
      (recs : List (String × DcElement)) (e : OaiFailure),
      (dspaceClient cfg).iter_records net fuel none none
        = some (recs, some e) →
      (DspaceConnector.harvest_full cfg net fuel st t today now).map
        (fun res => (res.1.isOk, res.2.1)) = some (false, st)) ∧
    (∀ (cfg : DspaceRepoConfig) (net : OaiNet) (fuel : Nat)
      (st : HarvestState) (t : RecordsTable) (today now : String)
      (recs : List (String × DcElement)) (e : OaiFailure),
      (dspaceClient cfg).iter_records net fuel
          (get_last_harvest_date st cfg.repo_id) none = some (recs, some e) →
      (DspaceConnector.harvest_incremental cfg net fuel st t today now).map
        (fun res => (res.1.isOk, res.2.1)) = some (false, st)) ∧
    (∀ (cfg : OmekaRepoConfig) (net : OaiNet) (fuel : Nat)
      (st : HarvestState) (t : RecordsTable) (today now : String)
      (recs : List (String × DcElement)) (e : OaiFailure),
      (omekaClient cfg).iter_records net fuel none none
        = some (recs, some e) →
      (OmekaConnector.harvest_full cfg net fuel st t today now).map
        (fun res => (res.1.isOk, res.2.1)) = some (false, st)) ∧
    (∀ (cfg : OmekaRepoConfig) (net : OaiNet) (fuel : Nat)
      (st : HarvestState) (t : RecordsTable) (today now : String)
      (recs : List (String × DcElement)) (e : OaiFailure),
      (omekaClient cfg).iter_records net fuel
          (get_last_harvest_date st cfg.repo_id) none = some (recs, some e) →
      (OmekaConnector.harvest_incremental cfg net fuel st t today now).map
        (fun res => (res.1.isOk, res.2.1)) = some (false, st)) := by
  refine ⟨?_, ?_, ?_, ?_, ?_, ?_, ?_, ?_⟩
  · intro cfg net fuel st t today now e st2 t2 h
    unfold DspaceConnector.harvest_full at h
    cases hiter : (dspaceClient cfg).iter_records net fuel none none with
    | none => rw [hiter] at h; exact absurd h (by simp [runHarvest])
    | some pr =>
      obtain ⟨recs, ierr⟩ := pr
      rw [hiter] at h
      exact runHarvest_err h
  · intro cfg net fuel st t today now e st2 t2 h
    unfold DspaceConnector.harvest_incremental at h
    cases hiter : (dspaceClient cfg).iter_records net fuel
        (get_last_harvest_date st cfg.repo_id) none with
    | none => rw [hiter] at h; exact absurd h (by simp [runHarvest])
    | some pr =>
      obtain ⟨recs, ierr⟩ := pr
      rw [hiter] at h
      exact runHarvest_err h
  · intro cfg net fuel st t today now e st2 t2 h
    unfold OmekaConnector.harvest_full at h
    cases hiter : (omekaClient cfg).iter_records net fuel none none with
    | none => rw [hiter] at h; exact absurd h (by simp [runHarvest])
    | some pr =>
      obtain ⟨recs, ierr⟩ := pr
      rw [hiter] at h
      exact runHarvest_err h
  · intro cfg net fuel st t today now e st2 t2 h
    unfold OmekaConnector.harvest_incremental at h
    cases hiter : (omekaClient cfg).iter_records net fuel
        (get_last_harvest_date st cfg.repo_id) none with
    | none => rw [hiter] at h; exact absurd h (by simp [runHarvest])
    | some pr =>
      obtain ⟨recs, ierr⟩ := pr
      rw [hiter] at h
      exact runHarvest_err h
  · intro cfg net fuel st t today now recs e hiter
    unfold DspaceConnector.harvest_full
    rw [hiter]
    exact runHarvest_propagates
  · intro cfg net fuel st t today now recs e hiter
    unfold DspaceConnector.harvest_incremental
    rw [hiter]
    exact runHarvest_propagates
  · intro cfg net fuel st t today now recs e hiter
    unfold OmekaConnector.harvest_full
    rw [hiter]
    exact runHarvest_propagates
  · intro cfg net fuel st t today now recs e hiter
    unfold OmekaConnector.harvest_incremental
    rw [hiter]
    exact runHarvest_propagates

theorem fatal_harvest_error_leaves_watermark_unchanged_witness :
    (DspaceConnector.harvest_full sampleDspaceCfg net404 1
        [("dspace_uclv", "2020-01-01")] [] "TODAY" "NOW").map
      (fun res => (res.1.isOk, res.2.1))
      = some (false, [("dspace_uclv", "2020-01-01")]) :=
  fatal_harvest_error_leaves_watermark_unchanged.2.2.2.2.1 sampleDspaceCfg
    net404 1 [("dspace_uclv", "2020-01-01")] [] "TODAY" "NOW" []
    (.httpError 404) (by rfl)

/-- C9: the harvest-state read returns the absent value both when no row
exists and when the stored date is the empty string, so an empty-string
watermark is indistinguishable from a never-harvested source: the
subsequent incremental run carries no `from` bound and is the very same
client run as for a source without a row. -/
theorem empty_string_watermark_behaves_as_absent :
    (∀ (st : HarvestState) (repo_id : String),
      get_last_harvest_date st repo_id = none ↔
        (stateLookup st repo_id = none ∨ stateLookup st repo_id = some "")) ∧
    (∀ (cfg : DspaceRepoConfig) (st : HarvestState) (net : OaiNet)
      (fuel : Nat),
      stateLookup st cfg.repo_id = some "" →
      (initialParams (dspaceClient cfg)
          (get_last_harvest_date st cfg.repo_id) none).fromDate = none ∧
      (dspaceClient cfg).iter_records net fuel
          (get_last_harvest_date st cfg.repo_id) none
        = (dspaceClient cfg).iter_records net fuel none none) := by
  have habs : ∀ (st : HarvestState) (repo_id : String),
      get_last_harvest_date st repo_id = none ↔
        (stateLookup st repo_id = none ∨ stateLookup st repo_id = some "") := by
    intro st repo_id
    unfold get_last_harvest_date
    cases hlk : stateLookup st repo_id with
    | none => simp
    | some d =>
      by_cases hd : d = ""
      · simp [hd]
      · simp [hd]
  refine ⟨habs, ?_⟩
  intro cfg st net fuel h
  have hnone : get_last_harvest_date st cfg.repo_id = none :=
    (habs st cfg.repo_id).mpr (Or.inr h)
  rw [hnone]
  exact ⟨rfl, rfl⟩

theorem empty_string_watermark_behaves_as_absent_witness :
    (initialParams (dspaceClient sampleDspaceCfg)
        (get_last_harvest_date [("dspace_uclv", "")]
          sampleDspaceCfg.repo_id) none).fromDate = none ∧
    (dspaceClient sampleDspaceCfg).iter_records netEmpty 1
        (get_last_harvest_date [("dspace_uclv", "")]
          sampleDspaceCfg.repo_id) none
      = (dspaceClient sampleDspaceCfg).iter_records netEmpty 1 none none :=
  empty_string_watermark_behaves_as_absent.2 sampleDspaceCfg
    [("dspace_uclv", "")] netEmpty 1 (by rfl)

/-- C10 counterexample: the round trip is not list-preserving for
semicolon-free, non-blank entries in general — an author entry with
surrounding whitespace (here `" a "`, which has no `;` and is non-blank
after trimming) comes back trimmed after indexing and reading the stored
row. -/
theorem roundtrip_not_preserving_padded_entries :
    ((index_record ([] : RecordsTable) samplePaddedRecord "t0").map
        _row_to_record).map UnifiedScholarlyRecord.authors = [["a"]] ∧
    samplePaddedRecord.authors = [" a "] ∧
    (';' ∉ (" a ").data) ∧ pyStrip " a " ≠ "" ∧
    (["a"] ≠ [" a "]) := by
  refine ⟨rfl, rfl, by decide, by decide, by decide⟩

/-- C10 amended: for a record whose authors, keywords and collections
entries contain no `;`, are non-blank, and carry no leading or trailing
whitespace (each entry equals its own strip), indexing the record and
converting its stored row back preserves the three lists in order; the
store joins with `"; "` and splits on `";"`, so entries containing a
semicolon — or padded with whitespace — do not survive the round trip. -/
theorem roundtrip_preserves_clean_lists :
    ∀ (r : UnifiedScholarlyRecord) (utcnow : String),
      (∀ a ∈ r.authors, (';' ∉ a.data) ∧ pyStrip a = a ∧ pyStrip a ≠ "") →
      (∀ a ∈ r.keywords, (';' ∉ a.data) ∧ pyStrip a = a ∧ pyStrip a ≠ "") →
      (∀ a ∈ r.collections, (';' ∉ a.data) ∧ pyStrip a = a ∧ pyStrip a ≠ "") →
      (_row_to_record (rowOfRecord r utcnow)).authors = r.authors ∧
      (_row_to_record (rowOfRecord r utcnow)).keywords = r.keywords ∧
      (_row_to_record (rowOfRecord r utcnow)).collections = r.collections := by
  intro r utcnow hau hkw hco
  refine ⟨?_, ?_, ?_⟩
  · show splitSemiClean (pyJoin "; " r.authors) = r.authors
    exact splitSemiClean_join r.authors hau
  · show splitSemiClean (pyJoin "; " r.keywords) = r.keywords
    exact splitSemiClean_join r.keywords hkw
  · show splitSemiClean (pyJoin "; " r.collections) = r.collections
    exact splitSemiClean_join r.collections hco

/-- A record with clean multi-valued entries. -/
def sampleCleanRecord : UnifiedScholarlyRecord :=
  { id := "oai:2", oai_identifier := "oai:2", title := "T",
    authors := ["Ada Lovelace", "B. Babbage"], institution := "i",
    repository := "r", date_issued := some "1843", type := none,
    url_landing_page := none, abstract := none,
    keywords := ["computing", "history of science"], language := some "en",
    collections := ["c1"], date_indexed := some "2024-01-01T00:00:00" }

theorem roundtrip_preserves_clean_lists_witness :
    (_row_to_record (rowOfRecord sampleCleanRecord "t0")).authors
      = sampleCleanRecord.authors ∧
    (_row_to_record (rowOfRecord sampleCleanRecord "t0")).keywords
      = sampleCleanRecord.keywords ∧
    (_row_to_record (rowOfRecord sampleCleanRecord "t0")).collections
      = sampleCleanRecord.collections :=
  roundtrip_preserves_clean_lists sampleCleanRecord "t0" (by decide)
    (by decide) (by decide)
